import Mathlib

/-!
Shallow embedding of the stock-ledger service of the Inventory-Manager backend
(`src/Backend/app/services/stock_service.py`, with the data model from
`src/Backend/app/models/models.py` and the request schemas from
`src/Backend/app/schemas/schemas.py`).

The SQLAlchemy session is modelled as an explicit immutable state (`DBState`)
holding the products, warehouses, stock-movement ledger and stock-transfer
tables.  Each service method becomes a pure function
`input → DBState → Except StockError (result × DBState)`; a Python
`raise ValueError(...)` (or a `None` return that the API layer turns into an
HTTP 404) becomes an `Except.error`, in which case the caller keeps the old
state — this models SQLAlchemy's behaviour that nothing is committed on the
failing paths (the service raises before `db.add`/`db.commit`, and
`complete_stock_transfer` explicitly rolls back).  Timestamps
(`created_at`, `completed_at`) are not modelled; no claim mentions them.
`Decimal` unit costs are modelled as integers (they only feed the derived
`total_cost` field, which no claim constrains numerically).
-/

namespace Inventory

/-- The `MovementType` enum from `models.py`. -/
inductive MovementType where
  | PURCHASE
  | SALE
  | ADJUSTMENT
  | DAMAGED
  | RETURN
  | TRANSFER_IN
  | TRANSFER_OUT
deriving DecidableEq

/-- A row of the `products` table (only the columns the stock service reads). -/
structure ProductRec where
  id : Nat
  is_active : Bool
deriving DecidableEq

/-- A row of the `warehouses` table (only the columns the stock service reads). -/
structure WarehouseRec where
  id : Nat
  is_active : Bool
deriving DecidableEq

/-- A row of the `stock_movements` table (the ledger). -/
structure StockMovementRec where
  product_id : Nat
  warehouse_id : Nat
  movement_type : MovementType
  quantity : Int
  unit_cost : Option Int
  total_cost : Option Int
  reference_number : Option String
  notes : Option String
  created_by : Nat
deriving DecidableEq

/-- A row of the `stock_transfers` table.  `status` is a plain string in the
source (`"pending"`, `"completed"`, `"cancelled"`). -/
structure StockTransferRec where
  id : Nat
  product_id : Nat
  from_warehouse_id : Nat
  to_warehouse_id : Nat
  quantity : Int
  transfer_reference : Option String
  notes : Option String
  status : String
  created_by : Nat
deriving DecidableEq

/-- Request payload `StockMovementCreate` from `schemas.py` (no constraint on
`quantity` there: any signed integer passes the schema). -/
structure StockMovementCreate where
  product_id : Nat
  warehouse_id : Nat
  movement_type : MovementType
  quantity : Int
  unit_cost : Option Int
  reference_number : Option String
  notes : Option String
deriving DecidableEq

/-- Request payload `StockTransferCreate` from `schemas.py`. -/
structure StockTransferCreate where
  product_id : Nat
  from_warehouse_id : Nat
  to_warehouse_id : Nat
  quantity : Int
  transfer_reference : Option String
  notes : Option String
deriving DecidableEq

/-- The pydantic validation on `StockTransferBase.quantity`:
`quantity: int = Field(..., gt=0)`. -/
def stockTransferCreateValid (d : StockTransferCreate) : Bool :=
  decide (0 < d.quantity)

/-- The database state threaded through the service calls. `nextTransferId`
models the autoincrementing primary key of `stock_transfers`. -/
structure DBState where
  products : List ProductRec
  warehouses : List WarehouseRec
  movements : List StockMovementRec
  transfers : List StockTransferRec
  nextTransferId : Nat
deriving DecidableEq

/-- The failure modes of the service layer.  `ValueError` messages are mapped
to distinct constructors; `insufficientStock` carries the `Available` and
`Requested` amounts interpolated into the message.  `transferNotFound` stands
for the `None` return that `api/stock_transfers.py` maps to HTTP 404
"Transfer not found".  `validationError` stands for a pydantic schema
rejection (HTTP 422) at the API boundary. -/
inductive StockError where
  | productNotFound
  | warehouseNotFound
  | sameWarehouse
  | insufficientStock (available requested : Int)
  | transferNotFound
  | invalidTransferState
  | validationError
deriving DecidableEq

/-- Lookup `db.query(Product).filter(and_(Product.id == pid, Product.is_active == True)).first()`
is non-empty. -/
def activeProduct (s : DBState) (pid : Nat) : Bool :=
  s.products.any (fun p => p.id == pid && p.is_active)

/-- Same lookup for warehouses. -/
def activeWarehouse (s : DBState) (wid : Nat) : Bool :=
  s.warehouses.any (fun w => w.id == wid && w.is_active)

/-- Method `_calculate_movement_quantity` of `StockService`: inbound kinds store `abs`,
outbound kinds store `-abs`, `ADJUSTMENT` keeps the caller's sign.  (The
Python `else: raise` branch is unreachable: the enum is exhausted.) -/
def calculate_movement_quantity (movement_type : MovementType)
    (input_quantity : Int) : Int :=
  let abs_quantity := |input_quantity|
  match movement_type with
  | .PURCHASE | .RETURN | .TRANSFER_IN => abs_quantity
  | .SALE | .DAMAGED | .TRANSFER_OUT => -abs_quantity
  | .ADJUSTMENT => input_quantity

/-- SQL `SUM(quantity)` over a set of rows: `NULL` on the empty set. -/
def sqlSum (l : List Int) : Option Int :=
  if l.isEmpty then none else some l.sum

/-- Method `get_product_stock_in_warehouse` of `StockService`: the query computes
`coalesce(sum(quantity), 0)` over the rows matching both ids, and the method
returns `result or 0` (Python falsy-or on an int). -/
def get_product_stock_in_warehouse (s : DBState)
    (product_id warehouse_id : Nat) : Int :=
  let rows := s.movements.filter
    (fun m => m.product_id == product_id && m.warehouse_id == warehouse_id)
  let result := (sqlSum (rows.map (fun m => m.quantity))).getD 0
  if result == 0 then 0 else result

/-- The `StockMovement` row built by `create_stock_movement` from the request
payload: the stored `quantity` is the sign-resolved one, `total_cost` uses the
absolute quantity. -/
def createdMovement (movement_data : StockMovementCreate) (user_id : Nat) :
    StockMovementRec :=
  let actual_quantity :=
    calculate_movement_quantity movement_data.movement_type movement_data.quantity
  { product_id := movement_data.product_id
    warehouse_id := movement_data.warehouse_id
    movement_type := movement_data.movement_type
    quantity := actual_quantity
    unit_cost := movement_data.unit_cost
    total_cost := movement_data.unit_cost.map (fun c => c * |actual_quantity|)
    reference_number := movement_data.reference_number
    notes := movement_data.notes
    created_by := user_id }

/-- Method `create_stock_movement` of `StockService`. -/
def create_stock_movement (movement_data : StockMovementCreate)
    (user_id : Nat) (s : DBState) :
    Except StockError (StockMovementRec × DBState) :=
  if activeProduct s movement_data.product_id = false then
    .error .productNotFound
  else if activeWarehouse s movement_data.warehouse_id = false then
    .error .warehouseNotFound
  else
    let actual_quantity :=
      calculate_movement_quantity movement_data.movement_type movement_data.quantity
    let current_stock :=
      get_product_stock_in_warehouse s movement_data.product_id movement_data.warehouse_id
    if actual_quantity < 0 ∧ current_stock + actual_quantity < 0 then
      .error (.insufficientStock current_stock |actual_quantity|)
    else
      let db_movement := createdMovement movement_data user_id
      .ok (db_movement, { s with movements := s.movements ++ [db_movement] })

/-- The `StockTransfer` row built by `create_stock_transfer`: persisted with
`status="pending"` and the next autoincrement id. -/
def createdTransfer (transfer_data : StockTransferCreate) (user_id nextId : Nat) :
    StockTransferRec :=
  { id := nextId
    product_id := transfer_data.product_id
    from_warehouse_id := transfer_data.from_warehouse_id
    to_warehouse_id := transfer_data.to_warehouse_id
    quantity := transfer_data.quantity
    transfer_reference := transfer_data.transfer_reference
    notes := transfer_data.notes
    status := "pending"
    created_by := user_id }

/-- Method `create_stock_transfer` of `StockService`. -/
def create_stock_transfer (transfer_data : StockTransferCreate)
    (user_id : Nat) (s : DBState) :
    Except StockError (StockTransferRec × DBState) :=
  if activeProduct s transfer_data.product_id = false then
    .error .productNotFound
  else if transfer_data.from_warehouse_id == transfer_data.to_warehouse_id then
    .error .sameWarehouse
  else if activeWarehouse s transfer_data.from_warehouse_id = false then
    .error .warehouseNotFound
  else if activeWarehouse s transfer_data.to_warehouse_id = false then
    .error .warehouseNotFound
  else
    let current_stock :=
      get_product_stock_in_warehouse s transfer_data.product_id transfer_data.from_warehouse_id
    if current_stock < transfer_data.quantity then
      .error (.insufficientStock current_stock transfer_data.quantity)
    else
      let db_transfer := createdTransfer transfer_data user_id s.nextTransferId
      .ok (db_transfer,
        { s with transfers := s.transfers ++ [db_transfer]
                 nextTransferId := s.nextTransferId + 1 })

/-- The correlation reference stamped on both halves of a completed transfer:
Python `f"TRANSFER-{transfer.id}"`. -/
def transferRef (transfer_id : Nat) : String :=
  "TRANSFER-" ++ Nat.repr transfer_id

/-- The outbound movement built by `complete_stock_transfer`. -/
def outboundMovement (t : StockTransferRec) (user_id : Nat) : StockMovementRec :=
  { product_id := t.product_id
    warehouse_id := t.from_warehouse_id
    movement_type := .TRANSFER_OUT
    quantity := calculate_movement_quantity .TRANSFER_OUT t.quantity
    unit_cost := none
    total_cost := none
    reference_number := some (transferRef t.id)
    notes := some ("Transfer to warehouse " ++ Nat.repr t.to_warehouse_id
      ++ ": " ++ t.notes.getD "")
    created_by := user_id }

/-- The inbound movement built by `complete_stock_transfer`. -/
def inboundMovement (t : StockTransferRec) (user_id : Nat) : StockMovementRec :=
  { product_id := t.product_id
    warehouse_id := t.to_warehouse_id
    movement_type := .TRANSFER_IN
    quantity := calculate_movement_quantity .TRANSFER_IN t.quantity
    unit_cost := none
    total_cost := none
    reference_number := some (transferRef t.id)
    notes := some ("Transfer from warehouse " ++ Nat.repr t.from_warehouse_id
      ++ ": " ++ t.notes.getD "")
    created_by := user_id }

/-- Method `complete_stock_transfer` of `StockService`.  A `None` return (transfer id not
present) is modelled as `.error .transferNotFound`, which is what the API
route turns it into.  The status update goes through the transfer's primary
key, as SQLAlchemy's unit of work does. -/
def complete_stock_transfer (transfer_id user_id : Nat) (s : DBState) :
    Except StockError (StockTransferRec × DBState) :=
  match s.transfers.find? (fun t => t.id == transfer_id) with
  | none => .error .transferNotFound
  | some transfer =>
    if transfer.status ≠ "pending" then
      .error .invalidTransferState
    else
      let current_stock :=
        get_product_stock_in_warehouse s transfer.product_id transfer.from_warehouse_id
      if current_stock < transfer.quantity then
        .error (.insufficientStock current_stock transfer.quantity)
      else
        let completed := { transfer with status := "completed" }
        let movements' := s.movements ++
          [outboundMovement transfer user_id, inboundMovement transfer user_id]
        let transfers' :=
          s.transfers.map (fun t => if t.id == transfer.id then completed else t)
        .ok (completed, { s with movements := movements', transfers := transfers' })

/-- Method `cancel_stock_transfer` of `StockService` (no `user_id` parameter in the
source). -/
def cancel_stock_transfer (transfer_id : Nat) (s : DBState) :
    Except StockError (StockTransferRec × DBState) :=
  match s.transfers.find? (fun t => t.id == transfer_id) with
  | none => .error .transferNotFound
  | some transfer =>
    if transfer.status ≠ "pending" then
      .error .invalidTransferState
    else
      let cancelled := { transfer with status := "cancelled" }
      let transfers' :=
        s.transfers.map (fun t => if t.id == transfer.id then cancelled else t)
      .ok (cancelled, { s with transfers := transfers' })

/-- The transfer-creation operation as reachable from outside: pydantic
validates `StockTransferCreate` (in particular `quantity > 0`) before the
service runs. -/
def create_stock_transfer_endpoint (transfer_data : StockTransferCreate)
    (user_id : Nat) (s : DBState) :
    Except StockError (StockTransferRec × DBState) :=
  if stockTransferCreateValid transfer_data = false then
    .error .validationError
  else
    create_stock_transfer transfer_data user_id s

/-! ### Observers used by the claims -/

/-- System-wide stock of a product: sum of all its ledger quantities across
every warehouse. -/
def totalProductStock (s : DBState) (product_id : Nat) : Int :=
  ((s.movements.filter (fun m => m.product_id == product_id)).map
    (fun m => m.quantity)).sum

/-- The ledger entries carrying a given transfer's correlation reference. -/
def transferMovements (s : DBState) (transfer_id : Nat) : List StockMovementRec :=
  s.movements.filter (fun m => m.reference_number == some (transferRef transfer_id))

/-- The shape required of a completed transfer's ledger pair: exactly two
entries, an outbound `-quantity` at the source and an inbound `+quantity` at
the destination, both stamped `TRANSFER-{id}`. -/
def transferPairOk (t : StockTransferRec) (ms : List StockMovementRec) : Bool :=
  match ms with
  | [m1, m2] =>
    m1.product_id == t.product_id && m1.warehouse_id == t.from_warehouse_id &&
    m1.movement_type == .TRANSFER_OUT && m1.quantity == -t.quantity &&
    m1.reference_number == some (transferRef t.id) &&
    m2.product_id == t.product_id && m2.warehouse_id == t.to_warehouse_id &&
    m2.movement_type == .TRANSFER_IN && m2.quantity == t.quantity &&
    m2.reference_number == some (transferRef t.id)
  | _ => false

/-- The per-transfer ledger invariant asserted by the spec: zero referencing
entries while pending or cancelled, exactly the debit/credit pair once
completed. -/
def transferLedgerInvariant (s : DBState) : Prop :=
  ∀ t ∈ s.transfers,
    ((t.status = "pending" ∨ t.status = "cancelled") → transferMovements s t.id = []) ∧
    (t.status = "completed" → transferPairOk t (transferMovements s t.id) = true)

/-! ### The transition system -/

/-- One successful operation of the stock service, as invocable through the
API: arbitrary movement recording, schema-validated transfer creation,
transfer completion, transfer cancellation. -/
inductive Step : DBState → DBState → Prop where
  | movement (d : StockMovementCreate) (uid : Nat) (m : StockMovementRec)
      (s s' : DBState) :
      create_stock_movement d uid s = .ok (m, s') → Step s s'
  | transferCreate (d : StockTransferCreate) (uid : Nat) (t : StockTransferRec)
      (s s' : DBState) :
      create_stock_transfer_endpoint d uid s = .ok (t, s') → Step s s'
  | transferComplete (tid uid : Nat) (t : StockTransferRec) (s s' : DBState) :
      complete_stock_transfer tid uid s = .ok (t, s') → Step s s'
  | transferCancel (tid : Nat) (t : StockTransferRec) (s s' : DBState) :
      cancel_stock_transfer tid s = .ok (t, s') → Step s s'

/-- The empty ledger over a fixed catalogue of products and warehouses. -/
def initialState (ps : List ProductRec) (ws : List WarehouseRec) : DBState :=
  { products := ps, warehouses := ws, movements := [], transfers := []
    nextTransferId := 1 }

/-- States reachable from the empty ledger by successful operations. -/
inductive Reachable (ps : List ProductRec) (ws : List WarehouseRec) :
    DBState → Prop where
  | init : Reachable ps ws (initialState ps ws)
  | step {s s' : DBState} : Reachable ps ws s → Step s s' → Reachable ps ws s'

/-- The `Step` relation, restricted to executions in which `record_movement` never forges a
transfer correlation reference. -/
inductive CleanStep : DBState → DBState → Prop where
  | movement (d : StockMovementCreate) (uid : Nat) (m : StockMovementRec)
      (s s' : DBState) :
      (∀ k : Nat, d.reference_number ≠ some (transferRef k)) →
      create_stock_movement d uid s = .ok (m, s') → CleanStep s s'
  | transferCreate (d : StockTransferCreate) (uid : Nat) (t : StockTransferRec)
      (s s' : DBState) :
      create_stock_transfer_endpoint d uid s = .ok (t, s') → CleanStep s s'
  | transferComplete (tid uid : Nat) (t : StockTransferRec) (s s' : DBState) :
      complete_stock_transfer tid uid s = .ok (t, s') → CleanStep s s'
  | transferCancel (tid : Nat) (t : StockTransferRec) (s s' : DBState) :
      cancel_stock_transfer tid s = .ok (t, s') → CleanStep s s'

/-- Reachability under forgery-free operation sequences. -/
inductive CleanReachable (ps : List ProductRec) (ws : List WarehouseRec) :
    DBState → Prop where
  | init : CleanReachable ps ws (initialState ps ws)
  | step {s s' : DBState} : CleanReachable ps ws s → CleanStep s s' →
      CleanReachable ps ws s'

/-! ### Concrete scenario data (used to instantiate the theorems) -/

/-- Catalogue: one active product. -/
def psW : List ProductRec := [{ id := 1, is_active := true }]

/-- Catalogue: two active warehouses. -/
def wsW : List WarehouseRec :=
  [{ id := 1, is_active := true }, { id := 2, is_active := true }]

/-- Empty ledger over the concrete catalogue. -/
def sInit : DBState := initialState psW wsW

/-- Payload for `record_movement(P, A, PURCHASE, 5)`. -/
def purchase5 : StockMovementCreate :=
  { product_id := 1, warehouse_id := 1, movement_type := .PURCHASE, quantity := 5
    unit_cost := none, reference_number := none, notes := none }

/-- State after recording the purchase of 5 units at warehouse 1. -/
def sPur : DBState := { sInit with movements := [createdMovement purchase5 7] }

/-- Payload for `create_transfer(P, A, B, 3)`. -/
def transfer3 : StockTransferCreate :=
  { product_id := 1, from_warehouse_id := 1, to_warehouse_id := 2, quantity := 3
    transfer_reference := none, notes := none }

/-- The pending transfer row persisted from `transfer3` (id 1). -/
def transfer3Row : StockTransferRec := createdTransfer transfer3 7 1

/-- State with the pending transfer on the books. -/
def sPend : DBState :=
  { sPur with transfers := [transfer3Row], nextTransferId := 2 }

/-- State after completing transfer 1. -/
def sDone : DBState :=
  { sPend with
      movements := [createdMovement purchase5 7, outboundMovement transfer3Row 7,
        inboundMovement transfer3Row 7]
      transfers := [{ transfer3Row with status := "completed" }] }

/-- State after cancelling (instead of completing) transfer 1. -/
def sCxl : DBState :=
  { sPend with transfers := [{ transfer3Row with status := "cancelled" }] }

/-- Payload for `record_movement(P, A, PURCHASE, 10)`. -/
def purchase10 : StockMovementCreate :=
  { product_id := 1, warehouse_id := 1, movement_type := .PURCHASE, quantity := 10
    unit_cost := none, reference_number := none, notes := none }

/-- State holding 10 units of product 1 at warehouse 1. -/
def sTen : DBState := { sInit with movements := [createdMovement purchase10 3] }

/-- A SALE request for magnitude `m`, as in the claims' `record_movement(p, w, SALE, m)`. -/
def saleData (p w : Nat) (m : Int) : StockMovementCreate :=
  { product_id := p, warehouse_id := w, movement_type := .SALE, quantity := m
    unit_cost := none, reference_number := none, notes := none }

/-- A transfer-creation payload with `quantity = 0` (rejected by the pydantic
schema, never by the service). -/
def zeroTransfer : StockTransferCreate :=
  { product_id := 1, from_warehouse_id := 1, to_warehouse_id := 2, quantity := 0
    transfer_reference := none, notes := none }

/-- A purchase recorded with a forged correlation reference `TRANSFER-1`. -/
def forgedPurchase : StockMovementCreate :=
  { product_id := 1, warehouse_id := 1, movement_type := .PURCHASE, quantity := 5
    unit_cost := none, reference_number := some "TRANSFER-1", notes := none }

/-- State after recording the forged-reference purchase. -/
def sForged : DBState := { sInit with movements := [createdMovement forgedPurchase 7] }

/-- Forged state with a pending transfer whose id the forged reference names. -/
def sForgedPend : DBState :=
  { sForged with transfers := [transfer3Row], nextTransferId := 2 }

end Inventory

namespace Inventory

/-! ### Ledger-sum helper lemmas -/

theorem get_stock_eq_sum (s : DBState) (p w : Nat) :
    get_product_stock_in_warehouse s p w =
      ((s.movements.filter (fun m => m.product_id == p && m.warehouse_id == w)).map
        (fun m => m.quantity)).sum := by
  simp only [get_product_stock_in_warehouse, sqlSum]
  by_cases he :
    ((s.movements.filter (fun m => m.product_id == p && m.warehouse_id == w)).map
      (fun m => m.quantity)).isEmpty
  · rw [List.isEmpty_iff] at he
    simp [he]
  · simp only [he, if_false, Option.getD_some]
    by_cases hz :
      ((s.movements.filter (fun m => m.product_id == p && m.warehouse_id == w)).map
        (fun m => m.quantity)).sum = 0
    · simp [hz]
    · simp [hz]

theorem stock_movements_append (s : DBState) (l : List StockMovementRec) (p w : Nat) :
    get_product_stock_in_warehouse { s with movements := s.movements ++ l } p w =
      get_product_stock_in_warehouse s p w +
        ((l.filter (fun m => m.product_id == p && m.warehouse_id == w)).map
          (fun m => m.quantity)).sum := by
  rw [get_stock_eq_sum, get_stock_eq_sum]
  simp [List.filter_append]

theorem total_movements_append (s : DBState) (l : List StockMovementRec) (p : Nat) :
    totalProductStock { s with movements := s.movements ++ l } p =
      totalProductStock s p +
        ((l.filter (fun m => m.product_id == p)).map (fun m => m.quantity)).sum := by
  simp [totalProductStock, List.filter_append]

theorem stock_transfers_update (s : DBState) (ts : List StockTransferRec)
    (n p w : Nat) :
    get_product_stock_in_warehouse { s with transfers := ts, nextTransferId := n } p w =
      get_product_stock_in_warehouse s p w := rfl

/-! ### Claim C2 -/

/-- C2: `_calculate_movement_quantity` returns `abs(m)` for PURCHASE, RETURN
and TRANSFER_IN; `-abs(m)` for SALE, DAMAGED and TRANSFER_OUT; and `m` itself
(sign preserved, including zero) for ADJUSTMENT. -/
theorem C2_sign_resolution (m : Int) :
    (calculate_movement_quantity .PURCHASE m = |m| ∧
     calculate_movement_quantity .RETURN m = |m| ∧
     calculate_movement_quantity .TRANSFER_IN m = |m|) ∧
    (calculate_movement_quantity .SALE m = -|m| ∧
     calculate_movement_quantity .DAMAGED m = -|m| ∧
     calculate_movement_quantity .TRANSFER_OUT m = -|m|) ∧
    calculate_movement_quantity .ADJUSTMENT m = m :=
  ⟨⟨rfl, rfl, rfl⟩, ⟨rfl, rfl, rfl⟩, rfl⟩

/-! ### Claim C9 -/

/-- C9: `get_product_stock_in_warehouse` equals the sum of the `quantity`
fields over all ledger rows matching both ids, and is 0 (not an error and not
null) when no row matches. -/
theorem C9_stock_is_ledger_sum (s : DBState) (p w : Nat) :
    get_product_stock_in_warehouse s p w =
      ((s.movements.filter (fun m => m.product_id == p && m.warehouse_id == w)).map
        (fun m => m.quantity)).sum ∧
    (s.movements.filter (fun m => m.product_id == p && m.warehouse_id == w) = [] →
      get_product_stock_in_warehouse s p w = 0) := by
  refine ⟨get_stock_eq_sum s p w, fun h => ?_⟩
  rw [get_stock_eq_sum, h]
  rfl

/-- Witness for C9 on the empty ledger. -/
theorem C9_stock_is_ledger_sum_witness :
    get_product_stock_in_warehouse (initialState [] []) 1 2 = 0 :=
  (C9_stock_is_ledger_sum (initialState [] []) 1 2).2 rfl

/-! ### Inversion and forward-run lemmas for the service operations -/

theorem create_stock_movement_ok {d : StockMovementCreate} {uid : Nat}
    {s : DBState} {m : StockMovementRec} {s' : DBState}
    (h : create_stock_movement d uid s = .ok (m, s')) :
    m = createdMovement d uid ∧
    s' = { s with movements := s.movements ++ [createdMovement d uid] } ∧
    (calculate_movement_quantity d.movement_type d.quantity < 0 →
     0 ≤ get_product_stock_in_warehouse s d.product_id d.warehouse_id +
       calculate_movement_quantity d.movement_type d.quantity) := by
  simp only [create_stock_movement] at h
  split_ifs at h with h1 h2 h3
  simp only [Except.ok.injEq, Prod.mk.injEq] at h
  obtain ⟨hm, hs⟩ := h
  rw [not_and_or, not_lt, not_lt] at h3
  exact ⟨hm.symm, hs.symm, fun hneg => by rcases h3 with h3 | h3 <;> omega⟩

theorem create_stock_movement_run (d : StockMovementCreate) (uid : Nat)
    (s : DBState)
    (hp : activeProduct s d.product_id = true)
    (hw : activeWarehouse s d.warehouse_id = true)
    (hok : ¬(calculate_movement_quantity d.movement_type d.quantity < 0 ∧
      get_product_stock_in_warehouse s d.product_id d.warehouse_id +
        calculate_movement_quantity d.movement_type d.quantity < 0)) :
    create_stock_movement d uid s = .ok (createdMovement d uid,
      { s with movements := s.movements ++ [createdMovement d uid] }) := by
  simp [create_stock_movement, hp, hw, hok]

theorem create_stock_transfer_ok {d : StockTransferCreate} {uid : Nat}
    {s : DBState} {t : StockTransferRec} {s' : DBState}
    (h : create_stock_transfer d uid s = .ok (t, s')) :
    t = createdTransfer d uid s.nextTransferId ∧
    s' = { s with
            transfers := s.transfers ++ [createdTransfer d uid s.nextTransferId]
            nextTransferId := s.nextTransferId + 1 } ∧
    d.quantity ≤ get_product_stock_in_warehouse s d.product_id d.from_warehouse_id ∧
    d.from_warehouse_id ≠ d.to_warehouse_id := by
  simp only [create_stock_transfer] at h
  split_ifs at h with h1 h2 h3 h4 h5
  simp only [Except.ok.injEq, Prod.mk.injEq] at h
  obtain ⟨ht, hs⟩ := h
  refine ⟨ht.symm, hs.symm, le_of_not_lt h5, ?_⟩
  intro hEq
  exact h2 (by simp [hEq])

theorem create_stock_transfer_endpoint_ok {d : StockTransferCreate} {uid : Nat}
    {s : DBState} {t : StockTransferRec} {s' : DBState}
    (h : create_stock_transfer_endpoint d uid s = .ok (t, s')) :
    0 < d.quantity ∧ create_stock_transfer d uid s = .ok (t, s') := by
  simp only [create_stock_transfer_endpoint] at h
  split_ifs at h with h1
  refine ⟨?_, h⟩
  have hv : stockTransferCreateValid d = true := by
    cases hb : stockTransferCreateValid d
    · exact absurd hb h1
    · rfl
  simpa [stockTransferCreateValid] using hv

theorem complete_stock_transfer_ok {tid uid : Nat} {s : DBState}
    {t' : StockTransferRec} {s' : DBState}
    (h : complete_stock_transfer tid uid s = .ok (t', s')) :
    ∃ t, s.transfers.find? (fun x => x.id == tid) = some t ∧
      t.status = "pending" ∧
      t.quantity ≤ get_product_stock_in_warehouse s t.product_id t.from_warehouse_id ∧
      t' = { t with status := "completed" } ∧
      s' = { s with
        movements := s.movements ++ [outboundMovement t uid, inboundMovement t uid]
        transfers := s.transfers.map
              (fun x => if x.id == t.id then { t with status := "completed" } else x) } := by
  cases hf : s.transfers.find? (fun x => x.id == tid) with
  | none => simp [complete_stock_transfer, hf] at h
  | some t =>
    simp only [complete_stock_transfer, hf] at h
    split_ifs at h with h1 h2
    simp only [Except.ok.injEq, Prod.mk.injEq] at h
    obtain ⟨ht, hs⟩ := h
    exact ⟨t, rfl, not_not.mp h1, le_of_not_lt h2, ht.symm, hs.symm⟩

theorem cancel_stock_transfer_ok {tid : Nat} {s : DBState}
    {t' : StockTransferRec} {s' : DBState}
    (h : cancel_stock_transfer tid s = .ok (t', s')) :
    ∃ t, s.transfers.find? (fun x => x.id == tid) = some t ∧
      t.status = "pending" ∧
      t' = { t with status := "cancelled" } ∧
      s' = { s with
        transfers := s.transfers.map
              (fun x => if x.id == t.id then { t with status := "cancelled" } else x) } := by
  cases hf : s.transfers.find? (fun x => x.id == tid) with
  | none => simp [cancel_stock_transfer, hf] at h
  | some t =>
    simp only [cancel_stock_transfer, hf] at h
    split_ifs at h with h1
    simp only [Except.ok.injEq, Prod.mk.injEq] at h
    obtain ⟨ht, hs⟩ := h
    exact ⟨t, rfl, not_not.mp h1, ht.symm, hs.symm⟩

/-! ### Claim C3 -/

/-- C3: when the resolved signed quantity is negative and adding it to the
current stock would go below zero, `create_stock_movement` fails with the
insufficient-stock error carrying the available and requested amounts (and,
the call failing before any insert, the ledger and the stock level are
untouched — in this embedding an `.error` result leaves the caller with the
unchanged input state). -/
theorem C3_insufficient_stock (d : StockMovementCreate) (uid : Nat) (s : DBState)
    (hp : activeProduct s d.product_id = true)
    (hw : activeWarehouse s d.warehouse_id = true)
    (hneg : calculate_movement_quantity d.movement_type d.quantity < 0)
    (hshort : get_product_stock_in_warehouse s d.product_id d.warehouse_id +
        calculate_movement_quantity d.movement_type d.quantity < 0) :
    create_stock_movement d uid s =
      .error (.insufficientStock
        (get_product_stock_in_warehouse s d.product_id d.warehouse_id)
        |calculate_movement_quantity d.movement_type d.quantity|) := by
  simp [create_stock_movement, hp, hw, hneg, hshort]

/-- Witness for C3: the spec's own example — stock 10, `SALE 15` fails with
available 10, requested 15. -/
theorem C3_insufficient_stock_witness :
    create_stock_movement (saleData 1 1 15) 3 sTen =
      .error (.insufficientStock 10 15) :=
  C3_insufficient_stock (saleData 1 1 15) 3 sTen rfl rfl (by decide) (by decide)

/-! ### Claim C10 -/

/-- C10: a SALE of exactly the whole current stock `m > 0` succeeds (the
guard rejects only strictly negative results) and leaves the stock at 0. -/
theorem C10_sale_drains_to_zero (s : DBState) (p w uid : Nat) (m : Int)
    (hp : activeProduct s p = true)
    (hw : activeWarehouse s w = true)
    (hcur : get_product_stock_in_warehouse s p w = m)
    (hm : 0 < m) :
    create_stock_movement (saleData p w m) uid s =
      .ok (createdMovement (saleData p w m) uid,
        { s with movements := s.movements ++ [createdMovement (saleData p w m) uid] }) ∧
    get_product_stock_in_warehouse
      { s with movements := s.movements ++ [createdMovement (saleData p w m) uid] }
      p w = 0 := by
  have hcalc : calculate_movement_quantity .SALE m = -m := by
    simp [calculate_movement_quantity, abs_of_pos hm]
  constructor
  · refine create_stock_movement_run _ uid s hp hw ?_
    simp only [saleData, hcalc]
    rw [hcur]
    omega
  · rw [stock_movements_append]
    have hfil : ([createdMovement (saleData p w m) uid].filter
        (fun mm => mm.product_id == p && mm.warehouse_id == w)) =
        [createdMovement (saleData p w m) uid] := by
      simp [createdMovement, saleData]
    rw [hfil, hcur]
    simp [createdMovement, saleData, hcalc]

/-- Witness for C10: stock 5 at warehouse 1, `SALE 5` succeeds and leaves 0. -/
theorem C10_sale_drains_to_zero_witness :
    create_stock_movement (saleData 1 1 5) 9 sPur =
      .ok (createdMovement (saleData 1 1 5) 9,
        { sPur with movements := sPur.movements ++ [createdMovement (saleData 1 1 5) 9] }) ∧
    get_product_stock_in_warehouse
      { sPur with movements := sPur.movements ++ [createdMovement (saleData 1 1 5) 9] }
      1 1 = 0 :=
  C10_sale_drains_to_zero sPur 1 1 9 5 rfl rfl (by decide) (by decide)

/-! ### Claim C6 -/

/-- C6: `complete_stock_transfer` on a missing id fails with the not-found
error (the API's 404), and on an existing non-pending transfer fails with the
invalid-state error; both failures happen before any write, so in this
state-passing embedding no ledger entry and no transfer change is produced. -/
theorem C6_complete_guards (s : DBState) (tid uid : Nat) :
    (s.transfers.find? (fun t => t.id == tid) = none →
      complete_stock_transfer tid uid s = .error .transferNotFound) ∧
    (∀ t, s.transfers.find? (fun t => t.id == tid) = some t →
      t.status ≠ "pending" →
      complete_stock_transfer tid uid s = .error .invalidTransferState) := by
  constructor
  · intro h
    simp [complete_stock_transfer, h]
  · intro t h hst
    simp [complete_stock_transfer, h, hst]

/-- Witness for C6: completing a transfer id absent from the empty ledger. -/
theorem C6_complete_guards_witness :
    complete_stock_transfer 1 0 (initialState [] []) = .error .transferNotFound :=
  (C6_complete_guards (initialState [] []) 1 0).1 rfl

/-! ### Claim C8 (corrected) -/

/-- C8 counterexample: the service-layer `create_stock_transfer`, handed a
quantity-0 payload directly, does not fail validation — it succeeds and
persists the transfer (the empty source warehouse passes the availability
check because `0 < 0` is false).  Only the pydantic schema enforces
`quantity > 0`. -/
theorem C8_counterexample :
    zeroTransfer.quantity ≤ 0 ∧
    create_stock_transfer zeroTransfer 9 sInit =
      .ok (createdTransfer zeroTransfer 9 1,
        { sInit with transfers := [createdTransfer zeroTransfer 9 1]
                     nextTransferId := 2 }) ∧
    createdTransfer zeroTransfer 9 1 ∈
      (({ sInit with transfers := [createdTransfer zeroTransfer 9 1]
                     nextTransferId := 2 } : DBState)).transfers :=
  ⟨by decide, rfl, by simp⟩

/-- C8 (amended): a non-positive quantity is rejected by the schema layer
(`StockTransferCreate`'s `gt=0` constraint), so the validated endpoint fails
and persists nothing; the service function itself performs no `quantity > 0`
check. -/
theorem C8_amended_schema_validation (d : StockTransferCreate) (uid : Nat)
    (s : DBState) (h : d.quantity ≤ 0) :
    stockTransferCreateValid d = false ∧
    create_stock_transfer_endpoint d uid s = .error .validationError := by
  have hv : stockTransferCreateValid d = false := by
    simp only [stockTransferCreateValid, decide_eq_false_iff_not, not_lt]
    exact h
  exact ⟨hv, by simp [create_stock_transfer_endpoint, hv]⟩

/-- Witness for the amended C8 at the concrete quantity-0 payload. -/
theorem C8_amended_schema_validation_witness :
    stockTransferCreateValid zeroTransfer = false ∧
    create_stock_transfer_endpoint zeroTransfer 9 sInit = .error .validationError :=
  C8_amended_schema_validation zeroTransfer 9 sInit (by decide)

/-! ### State-update lemmas for the combined movement/transfer writes -/

theorem stock_full_update (s : DBState) (l : List StockMovementRec)
    (ts : List StockTransferRec) (p w : Nat) :
    get_product_stock_in_warehouse
        { s with movements := s.movements ++ l, transfers := ts } p w =
      get_product_stock_in_warehouse s p w +
        ((l.filter (fun m => m.product_id == p && m.warehouse_id == w)).map
          (fun m => m.quantity)).sum := by
  rw [get_stock_eq_sum, get_stock_eq_sum]
  simp [List.filter_append]

theorem total_full_update (s : DBState) (l : List StockMovementRec)
    (ts : List StockTransferRec) (p : Nat) :
    totalProductStock { s with movements := s.movements ++ l, transfers := ts } p =
      totalProductStock s p +
        ((l.filter (fun m => m.product_id == p)).map (fun m => m.quantity)).sum := by
  simp [totalProductStock, List.filter_append]

/-! ### Claim C1 -/

/-- C1: a successful completion of a found transfer (positive quantity,
distinct warehouses) moves exactly `quantity` out of the source stock and
into the destination stock, leaving the system-wide stock of the product
unchanged. -/
theorem C1_transfer_conservation (s : DBState) (t t' : StockTransferRec)
    (uid : Nat) (s' : DBState)
    (hq : 0 < t.quantity)
    (hne : t.from_warehouse_id ≠ t.to_warehouse_id)
    (hfind : s.transfers.find? (fun x => x.id == t.id) = some t)
    (hok : complete_stock_transfer t.id uid s = .ok (t', s')) :
    get_product_stock_in_warehouse s' t.product_id t.from_warehouse_id =
      get_product_stock_in_warehouse s t.product_id t.from_warehouse_id - t.quantity ∧
    get_product_stock_in_warehouse s' t.product_id t.to_warehouse_id =
      get_product_stock_in_warehouse s t.product_id t.to_warehouse_id + t.quantity ∧
    totalProductStock s' t.product_id = totalProductStock s t.product_id := by
  obtain ⟨u, hfu, hpend, hstock, ht', hs'⟩ := complete_stock_transfer_ok hok
  rw [hfind] at hfu
  injection hfu with hu
  subst hu
  subst hs'
  have habs : |t.quantity| = t.quantity := abs_of_pos hq
  have hout : (outboundMovement t uid).quantity = -t.quantity := by
    simp [outboundMovement, calculate_movement_quantity, habs]
  have hin : (inboundMovement t uid).quantity = t.quantity := by
    simp [inboundMovement, calculate_movement_quantity, habs]
  have hne' : (t.to_warehouse_id == t.from_warehouse_id) = false :=
    beq_eq_false_iff_ne.mpr (Ne.symm hne)
  have hne'' : (t.from_warehouse_id == t.to_warehouse_id) = false :=
    beq_eq_false_iff_ne.mpr hne
  refine ⟨?_, ?_, ?_⟩
  · rw [stock_full_update]
    have hf : ([outboundMovement t uid, inboundMovement t uid].filter
        (fun m => m.product_id == t.product_id && m.warehouse_id == t.from_warehouse_id)) =
        [outboundMovement t uid] := by
      simp [List.filter, outboundMovement, inboundMovement, hne']
    rw [hf]
    simp [hout]
    omega
  · rw [stock_full_update]
    have hf : ([outboundMovement t uid, inboundMovement t uid].filter
        (fun m => m.product_id == t.product_id && m.warehouse_id == t.to_warehouse_id)) =
        [inboundMovement t uid] := by
      simp [List.filter, outboundMovement, inboundMovement, hne'']
    rw [hf]
    simp [hin]
  · rw [total_full_update]
    have hf : ([outboundMovement t uid, inboundMovement t uid].filter
        (fun m => m.product_id == t.product_id)) =
        [outboundMovement t uid, inboundMovement t uid] := by
      simp [List.filter, outboundMovement, inboundMovement]
    rw [hf]
    simp [hout, hin]

/-- Witness for C1: completing the pending 3-unit transfer moves stock 5/0 to
2/3 and keeps the product total at 5. -/
theorem C1_transfer_conservation_witness :
    get_product_stock_in_warehouse sDone 1 1 =
      get_product_stock_in_warehouse sPend 1 1 - 3 ∧
    get_product_stock_in_warehouse sDone 1 2 =
      get_product_stock_in_warehouse sPend 1 2 + 3 ∧
    totalProductStock sDone 1 = totalProductStock sPend 1 :=
  C1_transfer_conservation sPend transfer3Row { transfer3Row with status := "completed" }
    7 sDone (by decide) (by decide) rfl rfl

/-! ### The inductive reachability invariant -/

/-- Facts maintained by every successful operation: all stock levels are
non-negative, every persisted transfer has a positive quantity and an id
below the autoincrement counter, and transfer ids are pairwise distinct. -/
def StateOk (s : DBState) : Prop :=
  (∀ p w, 0 ≤ get_product_stock_in_warehouse s p w) ∧
  (∀ t ∈ s.transfers, 0 < t.quantity ∧ t.id < s.nextTransferId) ∧
  s.transfers.Pairwise (fun a b => a.id ≠ b.id)

theorem pairwise_id_unique {l : List StockTransferRec}
    (h : l.Pairwise (fun a b => a.id ≠ b.id)) :
    ∀ {a b}, a ∈ l → b ∈ l → a.id = b.id → a = b := by
  induction l with
  | nil =>
    intro a b ha
    cases ha
  | cons x xs ih =>
    intro a b ha hb heq
    obtain ⟨hx, hxs⟩ := List.pairwise_cons.mp h
    rcases List.mem_cons.mp ha with ha1 | ha1
    · rcases List.mem_cons.mp hb with hb1 | hb1
      · rw [ha1, hb1]
      · subst ha1
        exact absurd heq (hx b hb1)
    · rcases List.mem_cons.mp hb with hb1 | hb1
      · subst hb1
        exact absurd heq.symm (hx a ha1)
      · exact ih hxs ha1 hb1 heq

theorem step_preserves_stateOk {s s' : DBState}
    (hs : StateOk s) (hstep : Step s s') : StateOk s' := by
  obtain ⟨hnn, htf, hpw⟩ := hs
  cases hstep with
  | movement d uid m s s' h =>
    obtain ⟨hm, hs', hguard⟩ := create_stock_movement_ok h
    subst hs'
    refine ⟨?_, htf, hpw⟩
    intro p w
    rw [stock_movements_append]
    cases hb : ((createdMovement d uid).product_id == p &&
        (createdMovement d uid).warehouse_id == w) with
    | false =>
      have hfil : ([createdMovement d uid].filter
          (fun mm => mm.product_id == p && mm.warehouse_id == w)) = [] := by
        simp [List.filter, hb]
      rw [hfil]
      simpa using hnn p w
    | true =>
      have hfil : ([createdMovement d uid].filter
          (fun mm => mm.product_id == p && mm.warehouse_id == w)) =
          [createdMovement d uid] := by
        simp [List.filter, hb]
      rw [hfil]
      simp only [createdMovement, Bool.and_eq_true, beq_iff_eq] at hb
      obtain ⟨hbp, hbw⟩ := hb
      simp only [List.map_cons, List.map_nil, List.sum_cons, List.sum_nil,
        createdMovement]
      by_cases hneg : calculate_movement_quantity d.movement_type d.quantity < 0
      · have := hguard hneg
        rw [← hbp, ← hbw]
        omega
      · have := hnn p w
        omega
  | transferCreate d uid t s s' h =>
    obtain ⟨hq, hsvc⟩ := create_stock_transfer_endpoint_ok h
    obtain ⟨ht, hs', hstk, hne⟩ := create_stock_transfer_ok hsvc
    subst hs'
    refine ⟨?_, ?_, ?_⟩
    · intro p w
      exact hnn p w
    · intro u hu
      rcases List.mem_append.mp hu with hu | hu
      · have h2 := htf u hu
        refine ⟨h2.1, ?_⟩
        show u.id < s.nextTransferId + 1
        omega
      · rw [List.mem_singleton.mp hu]
        refine ⟨hq, ?_⟩
        show s.nextTransferId < s.nextTransferId + 1
        omega
    · rw [List.pairwise_append]
      refine ⟨hpw, List.pairwise_singleton _ _, ?_⟩
      intro a ha b hb
      rw [List.mem_singleton.mp hb]
      have h2 := (htf a ha).2
      show a.id ≠ s.nextTransferId
      omega
  | transferComplete tid uid t s s' h =>
    obtain ⟨u, hfu, hpend, hstk, ht', hs'⟩ := complete_stock_transfer_ok h
    have humem : u ∈ s.transfers := List.mem_of_find?_eq_some hfu
    have hq : 0 < u.quantity := (htf u humem).1
    have habs : |u.quantity| = u.quantity := abs_of_pos hq
    have hout : (outboundMovement u uid).quantity = -u.quantity := by
      simp [outboundMovement, calculate_movement_quantity, habs]
    have hin : (inboundMovement u uid).quantity = u.quantity := by
      simp [inboundMovement, calculate_movement_quantity, habs]
    subst hs'
    refine ⟨?_, ?_, ?_⟩
    · intro p w
      rw [stock_full_update]
      have hexp : ([outboundMovement u uid, inboundMovement u uid].filter
          (fun m => m.product_id == p && m.warehouse_id == w)) =
          (if ((outboundMovement u uid).product_id == p &&
              (outboundMovement u uid).warehouse_id == w) = true
            then [outboundMovement u uid] else []) ++
          (if ((inboundMovement u uid).product_id == p &&
              (inboundMovement u uid).warehouse_id == w) = true
            then [inboundMovement u uid] else []) := by
        by_cases h1 : ((outboundMovement u uid).product_id == p &&
            (outboundMovement u uid).warehouse_id == w) = true <;>
          by_cases h2 : ((inboundMovement u uid).product_id == p &&
              (inboundMovement u uid).warehouse_id == w) = true <;>
            simp [List.filter, h1, h2]
      rw [hexp]
      by_cases h1 : ((outboundMovement u uid).product_id == p &&
          (outboundMovement u uid).warehouse_id == w) = true
      · simp only [outboundMovement, Bool.and_eq_true, beq_iff_eq] at h1
        obtain ⟨hp1, hw1⟩ := h1
        subst hp1
        subst hw1
        have h1' : ((outboundMovement u uid).product_id == u.product_id &&
            (outboundMovement u uid).warehouse_id == u.from_warehouse_id) = true := by
          simp [outboundMovement]
        rw [if_pos h1']
        by_cases h2 : ((inboundMovement u uid).product_id == u.product_id &&
            (inboundMovement u uid).warehouse_id == u.from_warehouse_id) = true
        · rw [if_pos h2]
          simp only [List.append_nil, List.cons_append, List.nil_append,
            List.map_cons, List.map_nil, List.sum_cons, List.sum_nil, hout, hin]
          have := hnn u.product_id u.from_warehouse_id
          omega
        · rw [if_neg h2]
          simp only [List.append_nil, List.map_cons, List.map_nil,
            List.sum_cons, List.sum_nil, hout]
          omega
      · rw [if_neg h1, List.nil_append]
        by_cases h2 : ((inboundMovement u uid).product_id == p &&
            (inboundMovement u uid).warehouse_id == w) = true
        · rw [if_pos h2]
          simp only [List.map_cons, List.map_nil, List.sum_cons, List.sum_nil, hin]
          have := hnn p w
          omega
        · rw [if_neg h2]
          simpa using hnn p w
    · intro x hx
      obtain ⟨y, hy, hxy⟩ := List.mem_map.mp hx
      by_cases hb : (y.id == u.id) = true
      · rw [if_pos hb] at hxy
        rw [← hxy]
        exact ⟨(htf u humem).1, (htf u humem).2⟩
      · rw [if_neg hb] at hxy
        rw [← hxy]
        exact htf y hy
    · rw [List.pairwise_map]
      refine hpw.imp ?_
      intro a b hab
      have hida : ∀ x : StockTransferRec,
          (if (x.id == u.id) = true then { u with status := "completed" } else x).id
            = x.id := by
        intro x
        by_cases hb : (x.id == u.id) = true
        · rw [if_pos hb]
          exact (beq_iff_eq.mp hb).symm
        · rw [if_neg hb]
      rw [hida, hida]
      exact hab
  | transferCancel tid t s s' h =>
    obtain ⟨u, hfu, hpend, ht', hs'⟩ := cancel_stock_transfer_ok h
    have humem : u ∈ s.transfers := List.mem_of_find?_eq_some hfu
    subst hs'
    refine ⟨?_, ?_, ?_⟩
    · intro p w
      exact hnn p w
    · intro x hx
      obtain ⟨y, hy, hxy⟩ := List.mem_map.mp hx
      by_cases hb : (y.id == u.id) = true
      · rw [if_pos hb] at hxy
        rw [← hxy]
        exact ⟨(htf u humem).1, (htf u humem).2⟩
      · rw [if_neg hb] at hxy
        rw [← hxy]
        exact htf y hy
    · rw [List.pairwise_map]
      refine hpw.imp ?_
      intro a b hab
      have hida : ∀ x : StockTransferRec,
          (if (x.id == u.id) = true then { u with status := "cancelled" } else x).id
            = x.id := by
        intro x
        by_cases hb : (x.id == u.id) = true
        · rw [if_pos hb]
          exact (beq_iff_eq.mp hb).symm
        · rw [if_neg hb]
      rw [hida, hida]
      exact hab

theorem reachable_stateOk (ps : List ProductRec) (ws : List WarehouseRec)
    {s : DBState} (h : Reachable ps ws s) : StateOk s := by
  induction h with
  | init =>
    refine ⟨?_, ?_, ?_⟩
    · intro p w
      rw [get_stock_eq_sum]
      simp [initialState]
    · intro t ht
      simp [initialState] at ht
    · simp [initialState]
  | step hr hstep ih =>
    exact step_preserves_stateOk ih hstep

/-! ### Claim C4 -/

/-- C4: in every state reachable from the empty ledger by successful
operations, the available stock of every (product, warehouse) pair is
non-negative. -/
theorem C4_stock_never_negative (ps : List ProductRec) (ws : List WarehouseRec)
    (s : DBState) (h : Reachable ps ws s) (p w : Nat) :
    0 ≤ get_product_stock_in_warehouse s p w :=
  (reachable_stateOk ps ws h).1 p w

/-- Witness for C4 at the empty ledger. -/
theorem C4_stock_never_negative_witness :
    0 ≤ get_product_stock_in_warehouse (initialState psW wsW) 1 1 :=
  C4_stock_never_negative psW wsW (initialState psW wsW) Reachable.init 1 1

/-! ### Concrete reachability chains -/

theorem sPur_step : Step sInit sPur :=
  Step.movement purchase5 7 (createdMovement purchase5 7) sInit sPur rfl

theorem sPend_step : Step sPur sPend :=
  Step.transferCreate transfer3 7 transfer3Row sPur sPend rfl

theorem sCxl_reachable : Reachable psW wsW sCxl :=
  Reachable.step
    (Reachable.step (Reachable.step Reachable.init sPur_step) sPend_step)
    (Step.transferCancel 1 { transfer3Row with status := "cancelled" } sPend sCxl rfl)

/-! ### Claim C5 -/

/-- C5: on a reachable state, a transfer in a terminal status (completed or
cancelled) makes both `complete_stock_transfer` and `cancel_stock_transfer`
fail with the invalid-state error, and no successful operation ever changes
that transfer's status again. -/
theorem C5_terminal_states_final (ps : List ProductRec) (ws : List WarehouseRec)
    (s : DBState) (t : StockTransferRec) (uid : Nat)
    (hr : Reachable ps ws s) (ht : t ∈ s.transfers)
    (hterm : t.status = "completed" ∨ t.status = "cancelled") :
    complete_stock_transfer t.id uid s = .error .invalidTransferState ∧
    cancel_stock_transfer t.id s = .error .invalidTransferState ∧
    (∀ s', Step s s' → ∃ t' ∈ s'.transfers, t'.id = t.id ∧ t'.status = t.status) := by
  have hOk := reachable_stateOk ps ws hr
  have huniq : ∀ {a b : StockTransferRec}, a ∈ s.transfers → b ∈ s.transfers →
      a.id = b.id → a = b := pairwise_id_unique hOk.2.2
  have hnp : t.status ≠ "pending" := by
    rcases hterm with h | h <;> simp [h]
  have hfind : s.transfers.find? (fun x => x.id == t.id) = some t := by
    cases hf : s.transfers.find? (fun x => x.id == t.id) with
    | none =>
      exfalso
      have := List.find?_eq_none.mp hf t ht
      simp at this
    | some u =>
      have humem : u ∈ s.transfers := List.mem_of_find?_eq_some hf
      have hid : u.id = t.id := by
        have := List.find?_some hf
        simpa using this
      rw [huniq humem ht hid]
  refine ⟨?_, ?_, ?_⟩
  · simp [complete_stock_transfer, hfind, hnp]
  · simp [cancel_stock_transfer, hfind, hnp]
  · intro s' hstep
    cases hstep with
    | movement d uid2 m s s' h =>
      obtain ⟨hm, hs', hguard⟩ := create_stock_movement_ok h
      subst hs'
      exact ⟨t, ht, rfl, rfl⟩
    | transferCreate d uid2 t2 s s' h =>
      obtain ⟨hq, hsvc⟩ := create_stock_transfer_endpoint_ok h
      obtain ⟨ht2, hs', hstk, hne⟩ := create_stock_transfer_ok hsvc
      subst hs'
      exact ⟨t, List.mem_append_left _ ht, rfl, rfl⟩
    | transferComplete tid uid2 t2 s s' h =>
      obtain ⟨u, hfu, hpend, hstk, ht2, hs'⟩ := complete_stock_transfer_ok h
      subst hs'
      have humem : u ∈ s.transfers := List.mem_of_find?_eq_some hfu
      have hne : (t.id == u.id) = false := by
        rw [beq_eq_false_iff_ne]
        intro hEq
        rw [huniq ht humem hEq] at hnp
        exact hnp hpend
      refine ⟨t, ?_, rfl, rfl⟩
      have himg := List.mem_map_of_mem
        (fun x => if (x.id == u.id) = true then { u with status := "completed" } else x) ht
      simpa [hne] using himg
    | transferCancel tid t2 s s' h =>
      obtain ⟨u, hfu, hpend, ht2, hs'⟩ := cancel_stock_transfer_ok h
      subst hs'
      have humem : u ∈ s.transfers := List.mem_of_find?_eq_some hfu
      have hne : (t.id == u.id) = false := by
        rw [beq_eq_false_iff_ne]
        intro hEq
        rw [huniq ht humem hEq] at hnp
        exact hnp hpend
      refine ⟨t, ?_, rfl, rfl⟩
      have himg := List.mem_map_of_mem
        (fun x => if (x.id == u.id) = true then { u with status := "cancelled" } else x) ht
      simpa [hne] using himg

/-- Witness for C5: cancelling the already-cancelled transfer 1 fails with
the invalid-state error. -/
theorem C5_terminal_states_final_witness :
    cancel_stock_transfer 1 sCxl = .error .invalidTransferState :=
  (C5_terminal_states_final psW wsW sCxl
    { transfer3Row with status := "cancelled" } 7 sCxl_reachable
    (by simp [sCxl]) (Or.inr rfl)).2.1

/-! ### Injectivity of the decimal transfer reference

The correlation reference is the string `TRANSFER-` followed by the decimal
representation of the transfer id (`Nat.repr`).  Distinct ids therefore get
distinct references; this is what lets the completed pair of a transfer be
recovered from the ledger unambiguously. -/

/-- Most-significant-digit-first decimal digit characters of a natural
number. -/
def reprDigits (n : Nat) : List Char :=
  if _h : n < 10 then [Nat.digitChar n]
  else reprDigits (n / 10) ++ [Nat.digitChar (n % 10)]
decreasing_by
  exact Nat.div_lt_self (by omega) (by omega)

theorem toDigitsCore_eq_reprDigits (f : Nat) :
    ∀ (n : Nat) (ds : List Char), n < f →
      Nat.toDigitsCore 10 f n ds = reprDigits n ++ ds := by
  induction f with
  | zero =>
    intro n ds h
    omega
  | succ f ih =>
    intro n ds h
    simp only [Nat.toDigitsCore]
    by_cases h0 : n / 10 = 0
    · rw [if_pos h0]
      have hn : n < 10 := by omega
      have hmod : n % 10 = n := by omega
      rw [reprDigits, dif_pos hn, hmod]
      rfl
    · rw [if_neg h0]
      have hlt : n / 10 < f := by omega
      rw [ih (n / 10) _ hlt]
      have hn : ¬n < 10 := by omega
      conv_rhs => rw [reprDigits, dif_neg hn]
      simp [List.append_assoc]

theorem repr_eq_reprDigits (n : Nat) :
    Nat.repr n = (reprDigits n).asString := by
  show (Nat.toDigits 10 n).asString = (reprDigits n).asString
  rw [Nat.toDigits, toDigitsCore_eq_reprDigits (n + 1) n [] (by omega)]
  rw [List.append_nil]

/-- Numeric value of a decimal digit character. -/
def digitVal (c : Char) : Nat := c.toNat - 48

theorem digitVal_digitChar {n : Nat} (h : n < 10) :
    digitVal (Nat.digitChar n) = n := by
  interval_cases n <;> rfl

/-- Decimal evaluation of a most-significant-first digit-character list. -/
def ofDigits10 (l : List Char) : Nat :=
  l.foldl (fun acc c => acc * 10 + digitVal c) 0

theorem ofDigits10_append_digit (l : List Char) (c : Char) :
    ofDigits10 (l ++ [c]) = ofDigits10 l * 10 + digitVal c := by
  simp [ofDigits10, List.foldl_append]

theorem ofDigits10_reprDigits (n : Nat) : ofDigits10 (reprDigits n) = n := by
  induction n using Nat.strong_induction_on with
  | _ n ih =>
    by_cases h : n < 10
    · rw [reprDigits, dif_pos h]
      show 0 * 10 + digitVal (Nat.digitChar n) = n
      rw [digitVal_digitChar h]
      omega
    · rw [reprDigits, dif_neg h, ofDigits10_append_digit]
      rw [ih (n / 10) (Nat.div_lt_self (by omega) (by omega))]
      rw [digitVal_digitChar (by omega : n % 10 < 10)]
      omega

theorem reprDigits_inj {a b : Nat} (h : reprDigits a = reprDigits b) : a = b := by
  have h2 := congrArg ofDigits10 h
  rwa [ofDigits10_reprDigits, ofDigits10_reprDigits] at h2

theorem nat_repr_data_inj {a b : Nat}
    (h : (Nat.repr a).data = (Nat.repr b).data) : a = b := by
  rw [repr_eq_reprDigits, repr_eq_reprDigits] at h
  exact reprDigits_inj h

theorem transferRef_inj {a b : Nat} (h : transferRef a = transferRef b) :
    a = b := by
  unfold transferRef at h
  have h2 := congrArg String.data h
  rw [String.data_append, String.data_append] at h2
  exact nat_repr_data_inj (List.append_cancel_left h2)

/-! ### Effect of each operation on a transfer's correlated ledger entries -/

theorem transferMovements_movements_append (s : DBState)
    (l : List StockMovementRec) (i : Nat) :
    transferMovements { s with movements := s.movements ++ l } i =
      transferMovements s i ++
        l.filter (fun m => m.reference_number == some (transferRef i)) := by
  simp [transferMovements, List.filter_append]

theorem transferMovements_full_update (s : DBState) (l : List StockMovementRec)
    (ts : List StockTransferRec) (i : Nat) :
    transferMovements { s with movements := s.movements ++ l, transfers := ts } i =
      transferMovements s i ++
        l.filter (fun m => m.reference_number == some (transferRef i)) := by
  simp [transferMovements, List.filter_append]

theorem cleanStep_step {s s' : DBState} (h : CleanStep s s') : Step s s' := by
  cases h with
  | movement d uid m s s' hclean hok => exact Step.movement d uid m s s' hok
  | transferCreate d uid t s s' hok => exact Step.transferCreate d uid t s s' hok
  | transferComplete tid uid t s s' hok =>
    exact Step.transferComplete tid uid t s s' hok
  | transferCancel tid t s s' hok => exact Step.transferCancel tid t s s' hok

theorem cleanReachable_reachable (ps : List ProductRec) (ws : List WarehouseRec)
    {s : DBState} (h : CleanReachable ps ws s) : Reachable ps ws s := by
  induction h with
  | init => exact Reachable.init
  | step hr hstep ih => exact Reachable.step ih (cleanStep_step hstep)

/-- Clean-execution invariant: the per-transfer ledger shape holds, and no
ledger entry carries the reference of a not-yet-allocated transfer id. -/
def CleanOk (s : DBState) : Prop :=
  transferLedgerInvariant s ∧
  ∀ k, s.nextTransferId ≤ k → transferMovements s k = []

theorem cleanStep_preserves_cleanOk {s s' : DBState}
    (hOk : StateOk s) (hC : CleanOk s) (hstep : CleanStep s s') : CleanOk s' := by
  obtain ⟨hnn, htf, hpw⟩ := hOk
  obtain ⟨hinv, hfresh⟩ := hC
  cases hstep with
  | movement d uid m s s' hclean h =>
    obtain ⟨hm, hs', hguard⟩ := create_stock_movement_ok h
    subst hs'
    have hTM : ∀ i, transferMovements
        { s with movements := s.movements ++ [createdMovement d uid] } i =
        transferMovements s i := by
      intro i
      rw [transferMovements_movements_append]
      have hne : ((createdMovement d uid).reference_number ==
          some (transferRef i)) = false := by
        rw [beq_eq_false_iff_ne]
        exact hclean i
      have hfil : ([createdMovement d uid].filter
          (fun mm => mm.reference_number == some (transferRef i))) = [] := by
        simp [List.filter, hne]
      rw [hfil, List.append_nil]
    constructor
    · intro t ht
      have h0 := hinv t ht
      exact ⟨fun hst => by rw [hTM]; exact h0.1 hst,
             fun hst => by rw [hTM]; exact h0.2 hst⟩
    · intro k hk
      rw [hTM]
      exact hfresh k hk
  | transferCreate d uid t s s' h =>
    obtain ⟨hq, hsvc⟩ := create_stock_transfer_endpoint_ok h
    obtain ⟨ht, hs', hstk, hne⟩ := create_stock_transfer_ok hsvc
    subst hs'
    have hTM : ∀ i, transferMovements
        { s with transfers := s.transfers ++ [createdTransfer d uid s.nextTransferId]
                 nextTransferId := s.nextTransferId + 1 } i =
        transferMovements s i := fun i => rfl
    constructor
    · intro x hx
      rcases List.mem_append.mp hx with hx | hx
      · have h0 := hinv x hx
        exact ⟨fun hst => by rw [hTM]; exact h0.1 hst,
               fun hst => by rw [hTM]; exact h0.2 hst⟩
      · rw [List.mem_singleton.mp hx]
        constructor
        · intro hst
          rw [hTM]
          exact hfresh s.nextTransferId (le_refl _)
        · intro hst
          exact absurd hst (by simp [createdTransfer])
    · intro k hk
      rw [hTM]
      refine hfresh k ?_
      have hk' : s.nextTransferId + 1 ≤ k := hk
      omega
  | transferComplete tid uid t s s' h =>
    obtain ⟨u, hfu, hpend, hstk, ht', hs'⟩ := complete_stock_transfer_ok h
    have humem : u ∈ s.transfers := List.mem_of_find?_eq_some hfu
    have huniq : ∀ {a b : StockTransferRec}, a ∈ s.transfers → b ∈ s.transfers →
        a.id = b.id → a = b := pairwise_id_unique hpw
    have hq : 0 < u.quantity := (htf u humem).1
    have habs : |u.quantity| = u.quantity := abs_of_pos hq
    have hidlt : u.id < s.nextTransferId := (htf u humem).2
    have key : ∀ i, i ≠ u.id →
        (some (transferRef u.id) == some (transferRef i)) = false := by
      intro i hi
      rw [beq_eq_false_iff_ne]
      intro hEq
      exact hi (transferRef_inj (Option.some.inj hEq)).symm
    have hSame : ∀ i, i ≠ u.id →
        transferMovements s' i = transferMovements s i := by
      intro i hi
      rw [hs', transferMovements_full_update]
      have hfil : ([outboundMovement u uid, inboundMovement u uid].filter
          (fun mm => mm.reference_number == some (transferRef i))) = [] := by
        simp [List.filter, outboundMovement, inboundMovement, key i hi]
      rw [hfil, List.append_nil]
    have hU : transferMovements s' u.id =
        [outboundMovement u uid, inboundMovement u uid] := by
      rw [hs', transferMovements_full_update]
      rw [hinv u humem |>.1 (Or.inl hpend), List.nil_append]
      simp [List.filter, outboundMovement, inboundMovement]
    have hTrans : s'.transfers = s.transfers.map
        (fun x => if (x.id == u.id) = true
          then { u with status := "completed" } else x) := by
      rw [hs']
    constructor
    · intro x hx
      rw [hTrans] at hx
      obtain ⟨y, hy, hxy⟩ := List.mem_map.mp hx
      by_cases hb : (y.id == u.id) = true
      · rw [if_pos hb] at hxy
        rw [← hxy]
        constructor
        · intro hst
          rcases hst with hst | hst <;> simp at hst
        · intro hst
          have hxid : ({ u with status := "completed" } : StockTransferRec).id
              = u.id := rfl
          rw [hxid, hU]
          simp [transferPairOk, outboundMovement, inboundMovement,
            calculate_movement_quantity, habs]
      · rw [if_neg hb] at hxy
        rw [← hxy]
        rw [Bool.not_eq_true] at hb
        have hyid : y.id ≠ u.id := beq_eq_false_iff_ne.mp hb
        have h0 := hinv y hy
        exact ⟨fun hst => by rw [hSame y.id hyid]; exact h0.1 hst,
               fun hst => by rw [hSame y.id hyid]; exact h0.2 hst⟩
    · intro k hk
      have hk' : s.nextTransferId ≤ k := by
        rw [hs'] at hk
        exact hk
      have hkne : k ≠ u.id := by omega
      rw [hSame k hkne]
      exact hfresh k hk'
  | transferCancel tid t s s' h =>
    obtain ⟨u, hfu, hpend, ht', hs'⟩ := cancel_stock_transfer_ok h
    have humem : u ∈ s.transfers := List.mem_of_find?_eq_some hfu
    have hTM : ∀ i, transferMovements s' i = transferMovements s i := by
      intro i
      rw [hs']
      rfl
    have hTrans : s'.transfers = s.transfers.map
        (fun x => if (x.id == u.id) = true
          then { u with status := "cancelled" } else x) := by
      rw [hs']
    constructor
    · intro x hx
      rw [hTrans] at hx
      obtain ⟨y, hy, hxy⟩ := List.mem_map.mp hx
      by_cases hb : (y.id == u.id) = true
      · rw [if_pos hb] at hxy
        rw [← hxy]
        constructor
        · intro hst
          rw [hTM]
          have hxid : ({ u with status := "cancelled" } : StockTransferRec).id
              = u.id := rfl
          rw [hxid]
          exact hinv u humem |>.1 (Or.inl hpend)
        · intro hst
          simp at hst
      · rw [if_neg hb] at hxy
        rw [← hxy]
        have h0 := hinv y hy
        exact ⟨fun hst => by rw [hTM]; exact h0.1 hst,
               fun hst => by rw [hTM]; exact h0.2 hst⟩
    · intro k hk
      rw [hTM]
      refine hfresh k ?_
      rw [hs'] at hk
      exact hk

theorem cleanReachable_cleanOk (ps : List ProductRec) (ws : List WarehouseRec)
    {s : DBState} (h : CleanReachable ps ws s) : CleanOk s := by
  induction h with
  | init =>
    constructor
    · intro t ht
      simp [initialState] at ht
    · intro k hk
      rfl
  | step hr hstep ih =>
    exact cleanStep_preserves_cleanOk
      (reachable_stateOk _ _ (cleanReachable_reachable _ _ hr)) ih hstep

/-! ### Claim C7 (corrected) -/

theorem sForged_step : Step sInit sForged :=
  Step.movement forgedPurchase 7 (createdMovement forgedPurchase 7) sInit sForged rfl

theorem sForgedPend_step : Step sForged sForgedPend :=
  Step.transferCreate transfer3 7 transfer3Row sForged sForgedPend rfl

/-- C7 counterexample: `record_movement` places no restriction on the
caller-supplied `reference_number`, so an ordinary movement can carry
`TRANSFER-1` before transfer 1 even exists; once the transfer is created and
still pending, the ledger already holds one entry referencing it, refuting
the zero-entries-while-pending invariant over the unrestricted operation
set. -/
theorem C7_counterexample :
    Reachable psW wsW sForgedPend ∧ ¬transferLedgerInvariant sForgedPend :=
  ⟨Reachable.step (Reachable.step Reachable.init sForged_step) sForgedPend_step,
   by unfold transferLedgerInvariant; decide⟩

theorem sDone_cleanReachable : CleanReachable psW wsW sDone :=
  CleanReachable.step
    (CleanReachable.step
      (CleanReachable.step CleanReachable.init
        (CleanStep.movement purchase5 7 (createdMovement purchase5 7) sInit sPur
          (fun _k hk => Option.noConfusion hk) rfl))
      (CleanStep.transferCreate transfer3 7 transfer3Row sPur sPend rfl))
    (CleanStep.transferComplete 1 7 { transfer3Row with status := "completed" }
      sPend sDone rfl)

/-- C7 (amended): in every state reachable by executions in which
`record_movement` never supplies a reference of the form `TRANSFER-{k}`, a
transfer owns zero correlated ledger entries while pending or cancelled, and
exactly the outbound/inbound pair (source `-quantity`, destination
`+quantity`, both stamped `TRANSFER-{id}`) once completed. -/
theorem C7_amended_transfer_ledger_pairs (ps : List ProductRec)
    (ws : List WarehouseRec) (s : DBState) (h : CleanReachable ps ws s) :
    transferLedgerInvariant s :=
  (cleanReachable_cleanOk ps ws h).1

/-- Witness for the amended C7: after the clean purchase/create/complete run,
completed transfer 1 owns exactly its debit/credit pair. -/
theorem C7_amended_transfer_ledger_pairs_witness :
    transferPairOk { transfer3Row with status := "completed" }
      (transferMovements sDone 1) = true :=
  ((C7_amended_transfer_ledger_pairs psW wsW sDone sDone_cleanReachable)
    { transfer3Row with status := "completed" } (by decide)).2 rfl

end Inventory
